import Mathlib

/-!
# Verification of the DependencyTreeRNN++ training/evaluation engine

Shallow embedding of the training and evaluation control logic of
`RnnDependencyTreeLib.cpp` (class `RnnTreeLM`) together with the state
container of `RnnState.h`.  Real-valued quantities that the C++ code holds
in `double` variables are modelled as exact rationals `ℚ` (or reals `ℝ`
for the perplexity/entropy formulas); IEEE-754 special values are modelled
symbolically where a claim depends on them.  File and console output of
the source is pure diagnostics and is omitted from the embedding.
-/

/-! ## Feature label vector (`RnnTreeLM::ResetFeatureLabelVector`,
`RnnTreeLM::UpdateFeatureLabelVector`)

The feature layer `state.FeatureLayer` is a dense vector of doubles,
modelled as `List ℚ`.  `m_featureGammaCoeff` is the decay coefficient. -/

/-- Source `RnnTreeLM::ResetFeatureLabelVector`:
`state.FeatureLayer.assign(GetFeatureSize(), 0.0)`. -/
def ResetFeatureLabelVector (sizeFeature : ℕ) : List ℚ :=
  List.replicate sizeFeature 0

/-- Source `RnnTreeLM::UpdateFeatureLabelVector`: multiply every entry of the
feature layer by `m_featureGammaCoeff`, then set entry `label` to `1.0`
when `0 <= label < sizeFeatures`. -/
def UpdateFeatureLabelVector (gammaCoeff : ℚ) (label : ℤ) (f : List ℚ) : List ℚ :=
  let decayed := f.map (fun a => a * gammaCoeff)
  if 0 ≤ label ∧ label < (decayed.length : ℤ) then
    decayed.set label.toNat 1
  else
    decayed

/-! ## Learning-rate discounting around one backward step
(`RnnTreeLM::TrainRnnModel`, lines 345-360)

`BackPropagateErrorsThenOneStepGradientDescent` is declared in
`RnnDependencyTreeLib.h`/`RnnLib` and its body is outside this translation
unit; per its contract its side effect is an in-place update of the weight
matrices driven by the current learning rate, so it is taken here as an
arbitrary function from (weights, learning rate) to weights. -/

/-- The fields of `RnnTreeLM` that the discount/backprop/undiscount code
section reads or writes: the weight matrices (flattened) and
`m_learningRate`. -/
structure SgdStepState where
  weights : List ℚ
  learningRate : ℚ
  deriving DecidableEq

/-- The training-loop section around one backward step:
`alphaBackup = m_learningRate; m_learningRate *= discount;
BackPropagateErrorsThenOneStepGradientDescent(...);
m_learningRate = alphaBackup`.

`backProp` stands for the weight update performed by
`BackPropagateErrorsThenOneStepGradientDescent` (modelled from the spec:
its only side effect is an in-place weight update that uses the current
learning rate). -/
def discountedBackPropStep (backProp : List ℚ → ℚ → List ℚ)
    (discount : ℚ) (s : SgdStepState) : SgdStepState :=
  let alphaBackup := s.learningRate
  let lrDiscounted := s.learningRate * discount
  let newWeights := backProp s.weights lrDiscounted
  { weights := newWeights, learningRate := alphaBackup }

/-! ## The divergence safety check (`RnnTreeLM::TrainRnnModel`, lines 309-314)

The accumulated log-probability is a C++ `double`, which can hold the
IEEE-754 special values.  The check in the source is
`if (trainLogProbability != trainLogProbability) { ... return false; }`
(the `isinf` test next to it is commented out).  We model a double
symbolically as either a finite value, one of the two infinities, or NaN,
with the IEEE semantics of `!=`: NaN compares unequal to everything,
including itself. -/

/-- Symbolic model of a C++ `double` value: finite, infinite or NaN. -/
inductive DVal where
  | finite : ℚ → DVal
  | posInf : DVal
  | negInf : DVal
  | nan : DVal
  deriving DecidableEq

/-- IEEE-754 semantics of the C++ `!=` operator on doubles: any comparison
with NaN is unordered, so `!=` is true; otherwise values compare by
identity of the represented extended real. -/
def dvalNe : DVal → DVal → Bool
  | .nan, _ => true
  | _, .nan => true
  | .finite a, .finite b => decide (a ≠ b)
  | .finite _, .posInf => true
  | .finite _, .negInf => true
  | .posInf, .finite _ => true
  | .posInf, .posInf => false
  | .posInf, .negInf => true
  | .negInf, .finite _ => true
  | .negInf, .posInf => true
  | .negInf, .negInf => false

/-- A double is finite iff it is neither an infinity nor NaN. -/
def dvalIsFinite : DVal → Bool
  | .finite _ => true
  | _ => false

/-- The safety check of `TrainRnnModel` on the accumulated training
log-probability: the loop stops (returns `false`) exactly when
`trainLogProbability != trainLogProbability` holds. -/
def trainNumericalErrorStops (trainLogProbability : DVal) : Bool :=
  dvalNe trainLogProbability trainLogProbability

/-! ## Perplexity and entropy (`RnnTreeLM::TrainRnnModel`, lines 410-412
and 434-439)

`ExponentiateBase10` is defined outside this translation unit; modelled
from the spec: perplexity is `10^(-logProb/uniqueWordCount)`, so
`ExponentiateBase10 x = 10^x`.  `log10` is the C library base-10
logarithm, `Real.logb 10`. -/

/-- Modelled from the spec: `ExponentiateBase10 x` computes `10^x`
(the helper lives outside this translation unit; the spec fixes
perplexity to `10^(-logProb/uniqueWordCount)`). -/
noncomputable def ExponentiateBase10 (x : ℝ) : ℝ :=
  (10 : ℝ) ^ x

/-- Line 410: `trainEntropy = -trainLogProbability/log10((double)2) / uniqueWordCounter`. -/
noncomputable def trainEntropy (trainLogProbability : ℝ) (uniqueWordCounter : ℕ) : ℝ :=
  -trainLogProbability / Real.logb 10 2 / (uniqueWordCounter : ℝ)

/-- Lines 411-412: `trainPerplexity = ExponentiateBase10(-trainLogProbability / (double)uniqueWordCounter)`. -/
noncomputable def trainPerplexity (trainLogProbability : ℝ) (uniqueWordCounter : ℕ) : ℝ :=
  ExponentiateBase10 (-trainLogProbability / (uniqueWordCounter : ℝ))

/-- Lines 434-436: `validPerplexity`, with the guard for an empty validation set:
`(validWordCounter == 0) ? 0 : ExponentiateBase10(-validLogProbability / validWordCounter)`. -/
noncomputable def validPerplexity (validLogProbability : ℝ) (validWordCounter : ℕ) : ℝ :=
  if validWordCounter = 0 then 0
  else ExponentiateBase10 (-validLogProbability / (validWordCounter : ℝ))

/-- Lines 437-439: `validEntropy`, with the guard for an empty validation set:
`(validWordCounter == 0) ? 0 : -validLogProbability / log10((double)2) / validWordCounter`. -/
noncomputable def validEntropy (validLogProbability : ℝ) (validWordCounter : ℕ) : ℝ :=
  if validWordCounter = 0 then 0
  else -validLogProbability / Real.logb 10 2 / (validWordCounter : ℝ)

/-! ## End-of-epoch transition of the training loop
(`RnnTreeLM::TrainRnnModel`, lines 459-501)

The fields of `RnnTreeLM` that the end-of-epoch code reads or writes.
Weight matrices (`m_weights`) and the state container (`m_state`) are
modelled as flat vectors of rationals; equality on them models bitwise
equality of the C++ objects.  Model persistence (`SaveRnnModelToFile`,
`SaveWordEmbeddings`) is external file IO and is omitted. -/
structure TrainLoopState where
  weights : List ℚ
  state : List ℚ
  weightsBackup : List ℚ
  stateBackup : List ℚ
  learningRate : ℚ
  lastValidLogProbability : ℚ
  minLogProbaImprovement : ℚ
  doStartReducingLearningRate : Bool
  iteration : ℕ
  loopEpochs : Bool
  deriving DecidableEq

/-- Lines 464-474: rollback or checkpoint.  If
`validLogProbability < lastValidLogProbability`, restore
`m_weights = m_weightsBackup; m_state = m_stateBackup`; otherwise
`m_weightsBackup = m_weights; m_stateBackup = m_state`. -/
def epochEndBackupOrRestore (s : TrainLoopState) (validLogProbability : ℚ) :
    TrainLoopState :=
  if validLogProbability < s.lastValidLogProbability then
    { s with weights := s.weightsBackup, state := s.stateBackup }
  else
    { s with weightsBackup := s.weights, stateBackup := s.state }

/-- Lines 476-487: the convergence test.  If
`validLogProbability * m_minLogProbaImprovement < lastValidLogProbability`
then either set `m_doStartReducingLearningRate` (first trigger) or stop
the epoch loop (`loopEpochs = false; break`, after saving the model). -/
def epochEndConvergenceTest (s : TrainLoopState) (validLogProbability : ℚ) :
    TrainLoopState :=
  if validLogProbability * s.minLogProbaImprovement < s.lastValidLogProbability then
    if s.doStartReducingLearningRate = false then
      { s with doStartReducingLearningRate := true }
    else
      { s with loopEpochs := false }
  else
    s

/-- Lines 489-500: when the loop continues, halve the learning rate if
reduction has started, then update `lastValidLogProbability`, increment
the iteration counter and save the model. -/
def epochEndAdvance (s : TrainLoopState) (validLogProbability : ℚ) :
    TrainLoopState :=
  if s.loopEpochs then
    { s with
      learningRate :=
        if s.doStartReducingLearningRate then s.learningRate / 2
        else s.learningRate,
      lastValidLogProbability := validLogProbability,
      iteration := s.iteration + 1 }
  else
    s

/-- The complete end-of-epoch transition (lines 459-501), executed after
`TestRnnModel` has produced `validLogProbability` for this epoch. -/
def epochEndUpdate (s : TrainLoopState) (validLogProbability : ℚ) :
    TrainLoopState :=
  epochEndAdvance
    (epochEndConvergenceTest (epochEndBackupOrRestore s validLogProbability)
      validLogProbability)
    validLogProbability

/-! ## Per-token processing in training and evaluation

`CurrentTokenNumberInSentence`, `CurrentTokenWord`, `CurrentTokenDiscount`
and `CurrentTokenLabel` are supplied by the corpus collaborator
(`BookUnrolls`, outside this translation unit); one visit of one token in
an unroll path is therefore modelled as a record of the values the
training/evaluation loop reads.  `logProbabilityWord` is the value
`log10(OutputLayer[outputNodeClass] * OutputLayer[word])` produced by
`ForwardPropagateOneStep` (also outside this translation unit) at this
visit; the claims below hold for every such value, so it is carried as
data rather than recomputed. -/
structure TokenVisit where
  tokenNumber : ℤ
  word : ℤ
  logProbabilityWord : ℚ
  deriving DecidableEq

/-- Lookup `std::unordered_map<int, double>::find`, on the association-list model
of the per-sentence map `logProbSentence`. -/
def mapFind (m : List (ℤ × ℚ)) (k : ℤ) : Option ℚ :=
  match m with
  | [] => none
  | (k', v) :: rest => if k' = k then some v else mapFind rest k

/-- Sum of the values stored in the per-sentence map. -/
def sumValues (m : List (ℤ × ℚ)) : ℚ :=
  (m.map Prod.snd).sum

/-- Keys of the per-sentence map. -/
def keysOf (m : List (ℤ × ℚ)) : List ℤ :=
  m.map Prod.fst

/-- The accumulators of `RnnTreeLM::TestRnnModel` touched by one token
visit: the per-sentence map `logProbSentence`, the per-sentence score
`sentenceLogProbability`, the corpus-level `testLogProbability`, the
unique-token counter `uniqueWordCounter` and the OOV tally `numUnk`. -/
structure TestTokenState where
  logProbSentence : List (ℤ × ℚ)
  sentenceLogProbability : ℚ
  testLogProbability : ℚ
  uniqueWordCounter : ℕ
  numUnk : ℕ
  deriving DecidableEq

/-- One iteration of the token loop of `RnnTreeLM::TestRnnModel`
(lines 581-625), restricted to the accumulator state: tokens with
`word >= 0 && word != 1` contribute their log-probability once per token
position (first visit inserts into the map and bumps the three
accumulators; a revisit only prints a diagnostic on mismatch); all other
tokens only bump `numUnk`. -/
def testProcessToken (s : TestTokenState) (t : TokenVisit) : TestTokenState :=
  if 0 ≤ t.word ∧ t.word ≠ 1 then
    match mapFind s.logProbSentence t.tokenNumber with
    | none =>
      { s with
        logProbSentence := (t.tokenNumber, t.logProbabilityWord) :: s.logProbSentence,
        testLogProbability := s.testLogProbability + t.logProbabilityWord,
        sentenceLogProbability := s.sentenceLogProbability + t.logProbabilityWord,
        uniqueWordCounter := s.uniqueWordCounter + 1 }
    | some _ => s
  else
    { s with numUnk := s.numUnk + 1 }

/-- The token visits of all unroll paths of one sentence, processed in
order by the evaluation loop. -/
def testProcessSentenceTokens (s : TestTokenState) (visits : List TokenVisit) :
    TestTokenState :=
  visits.foldl testProcessToken s

/-- Processing of one full sentence by `TestRnnModel` (lines 541-648):
the per-sentence map starts empty and `sentenceLogProbability` starts at
`0.0`, while `testLogProbability`, `uniqueWordCounter` and `numUnk` carry
over from the preceding sentences. -/
def testRunSentence (testLogProbability : ℚ) (uniqueWordCounter numUnk : ℕ)
    (visits : List TokenVisit) : TestTokenState :=
  testProcessSentenceTokens
    { logProbSentence := [],
      sentenceLogProbability := 0,
      testLogProbability := testLogProbability,
      uniqueWordCounter := uniqueWordCounter,
      numUnk := numUnk }
    visits

/-- Line 645: `sentenceScores.push_back(sentenceLogProbability)`. -/
def recordSentenceScore (sentenceScores : List ℚ) (s : TestTokenState) : List ℚ :=
  sentenceScores ++ [s.sentenceLogProbability]

/-- The log-probability of the first counted visit (word `>= 0` and
`!= 1`) of token position `p` in a list of visits, if any. -/
def firstVisitLogProb (visits : List TokenVisit) (p : ℤ) : Option ℚ :=
  match visits with
  | [] => none
  | t :: rest =>
    if (0 ≤ t.word ∧ t.word ≠ 1) ∧ t.tokenNumber = p then
      some t.logProbabilityWord
    else
      firstVisitLogProb rest p

/-- The accumulators of `RnnTreeLM::TrainRnnModel` touched by the
log-probability bookkeeping of one token visit (lines 285-307): the
per-sentence map, the corpus-level `trainLogProbability`, the unique-token
counter `uniqueWordCounter` and the raw token counter `m_wordCounter`. -/
structure TrainTokenState where
  logProbSentence : List (ℤ × ℚ)
  trainLogProbability : ℚ
  uniqueWordCounter : ℕ
  wordCounter : ℕ
  deriving DecidableEq

/-- The log-probability bookkeeping of one iteration of the token loop of
`RnnTreeLM::TrainRnnModel` (lines 285-307): tokens with `word >= 0`
(including the `<unk>` index 1) contribute on their first visit and bump
`m_wordCounter` on every visit; tokens with `word < 0` change nothing. -/
def trainProcessToken (s : TrainTokenState) (t : TokenVisit) : TrainTokenState :=
  if 0 ≤ t.word then
    let s' :=
      match mapFind s.logProbSentence t.tokenNumber with
      | none =>
        { s with
          logProbSentence := (t.tokenNumber, t.logProbabilityWord) :: s.logProbSentence,
          trainLogProbability := s.trainLogProbability + t.logProbabilityWord,
          uniqueWordCounter := s.uniqueWordCounter + 1 }
      | some _ => s
    { s' with wordCounter := s'.wordCounter + 1 }
  else
    s

/-! ## Vocabulary construction (`RnnTreeLM::LearnVocabularyFromTrainFile`,
`RnnTreeLM::SearchLabelInVocabulary`)

The corpus collaborator (`CorpusUnrolls`) is external; the values the
vocabulary code reads from it are modelled as plain data.
`AddWordToVocabulary` and `SearchWordInVocabulary` live outside this
translation unit and are modelled from the spec (section 4.1). -/

/-- Lookup in an association list keyed by strings (`std::map` /
`std::unordered_map` find). -/
def assocFind (m : List (String × ℤ)) (k : String) : Option ℤ :=
  match m with
  | [] => none
  | (k', v) :: rest => if k' = k then some v else assocFind rest k

/-- Assignment `map[k] = v`: overwrite the binding of `k` if present, otherwise
append a new binding. -/
def assocSet (m : List (String × ℤ)) (k : String) (v : ℤ) : List (String × ℤ) :=
  match m with
  | [] => [(k, v)]
  | (k', v') :: rest =>
    if k' = k then (k, v) :: rest else (k', v') :: assocSet rest k v

/-- Same, keyed by integers (`m_mapIndex2Word`). -/
def assocSetIdx (m : List (ℤ × String)) (k : ℤ) (v : String) : List (ℤ × String) :=
  match m with
  | [] => [(k, v)]
  | (k', v') :: rest =>
    if k' = k then (k, v) :: rest else (k', v') :: assocSetIdx rest k v

/-- One entry of `m_vocabularyStorage` (`VocabWord`): the word string, its
(discounted, rounded) count `cn` and its output class. -/
structure VocabWord where
  word : String
  cn : ℤ
  classIndex : ℤ
  deriving DecidableEq

/-- The vocabulary-related fields of `RnnTreeLM` read or written by
`LearnVocabularyFromTrainFile`. -/
structure RnnVocabState where
  numTrainWords : ℤ
  vocabularyStorage : List VocabWord
  mapWord2Index : List (String × ℤ)
  mapIndex2Word : List (ℤ × String)
  mapLabel2Index : List (String × ℤ)
  usesClassFile : Bool
  deriving DecidableEq

/-- The values `LearnVocabularyFromTrainFile` reads from the corpus
collaborator: the total word count returned by `ReadVocabulary`, the
filtered and frequency-sorted word list `vocabularyReverse` with its
discounted counts `wordCountsDiscounted`, and the label list
`labelsReverse`. -/
structure CorpusData where
  totalWords : ℤ
  vocabularyReverse : List String
  wordCountsDiscounted : List ℚ
  labelsReverse : List String
  deriving DecidableEq

/-- C stdlib `round`: round half away from zero. -/
def roundC (q : ℚ) : ℤ :=
  if 0 ≤ q then ⌊q + 1 / 2⌋ else -⌊-q + 1 / 2⌋

/-- Modelled from the spec: `SearchWordInVocabulary` (outside this
translation unit) is a pure lookup in the word → index map, returning `-1`
when the word is absent. -/
def SearchWordInVocabulary (s : RnnVocabState) (w : String) : ℤ :=
  match assocFind s.mapWord2Index w with
  | none => -1
  | some i => i

/-- Source `RnnTreeLM::SearchLabelInVocabulary` (lines 44-51): index of a label
in the label vocabulary, or `-1` if OOV. -/
def SearchLabelInVocabulary (s : RnnVocabState) (label : String) : ℤ :=
  match assocFind s.mapLabel2Index label with
  | none => -1
  | some i => i

/-- Modelled from the spec: `AddWordToVocabulary` (outside this
translation unit) appends a new entry with zero count and extends the
word ↔ index maps; if the word is already present it returns the existing
index and adds no duplicate entry. -/
def AddWordToVocabulary (s : RnnVocabState) (w : String) : RnnVocabState × ℤ :=
  match assocFind s.mapWord2Index w with
  | some i => (s, i)
  | none =>
    let i : ℤ := s.vocabularyStorage.length
    ({ s with
        vocabularyStorage := s.vocabularyStorage ++ [{ word := w, cn := 0, classIndex := 0 }],
        mapWord2Index := assocSet s.mapWord2Index w i,
        mapIndex2Word := assocSetIdx s.mapIndex2Word i w }, i)

/-- Assignment `m_vocabularyStorage[index].cn = (int)round(count)` (line 114):
in-place update of the count of the entry at `index`. -/
def setStorageCount (storage : List VocabWord) (index : ℤ) (count : ℚ) :
    List VocabWord :=
  match storage.get? index.toNat with
  | none => storage
  | some entry => storage.set index.toNat { entry with cn := roundC count }

/-- Lines 103-119: the loop copying one corpus word (with its discounted
count) into the vocabulary and the word ↔ index maps. -/
def learnVocabCopyWord (s : RnnVocabState) (wc : String × ℚ) : RnnVocabState :=
  let index := SearchWordInVocabulary s wc.1
  let (s1, index) :=
    if index = -1 then AddWordToVocabulary s wc.1 else (s, index)
  { s1 with
    vocabularyStorage := setStorageCount s1.vocabularyStorage index wc.2,
    mapWord2Index := assocSet s1.mapWord2Index wc.1 index,
    mapIndex2Word := assocSetIdx s1.mapIndex2Word index wc.1 }

/-- Lines 122-132: the loop copying the corpus labels into
`m_mapLabel2Index` with sequential indices in encounter order. -/
def learnVocabCopyLabel (p : RnnVocabState × ℤ) (label : String) :
    RnnVocabState × ℤ :=
  let (s, index) := p
  if SearchLabelInVocabulary s label = -1 then
    ({ s with mapLabel2Index := assocSet s.mapLabel2Index label index }, index + 1)
  else
    (s, index)

/-- Source `RnnTreeLM::LearnVocabularyFromTrainFile` (lines 61-141) on the
vocabulary state: store the corpus word count, clear the vocabulary
storage and the word/label maps, abort with `false` if an external class
file is requested, otherwise insert `</s>` first and copy the corpus
words, counts and labels.  (`FilterSortVocabulary`, `CopyVocabulary` and
the `printf` calls act only on the external corpus objects and the
console.) -/
def LearnVocabularyFromTrainFile (corpus : CorpusData) (s : RnnVocabState) :
    RnnVocabState × Bool :=
  let s1 := { s with numTrainWords := corpus.totalWords }
  let s2 := { s1 with
    vocabularyStorage := ([] : List VocabWord),
    mapWord2Index := ([] : List (String × ℤ)),
    mapIndex2Word := ([] : List (ℤ × String)),
    mapLabel2Index := ([] : List (String × ℤ)) }
  if s2.usesClassFile then
    (s2, false)
  else
    let s3 := (AddWordToVocabulary s2 "</s>").1
    let s4 := (corpus.vocabularyReverse.zip corpus.wordCountsDiscounted).foldl
      learnVocabCopyWord s3
    let s5 := (corpus.labelsReverse.foldl learnVocabCopyLabel (s4, 0)).1
    (s5, true)

/-! ## Helper lemmas -/

/-- Lookup `mapFind` returns `none` exactly when the key is absent. -/
theorem mapFind_eq_none_iff (m : List (ℤ × ℚ)) (k : ℤ) :
    mapFind m k = none ↔ k ∉ keysOf m := by
  induction m with
  | nil => simp [mapFind, keysOf]
  | cons hd tl ih =>
    obtain ⟨k', v⟩ := hd
    by_cases h : k' = k <;> simp [mapFind, keysOf, h, ih]
    · tauto

/-- A token visit with `word < 0` or `word == 1` leaves the per-sentence
map of the evaluation loop unchanged. -/
theorem testProcessToken_map_of_skip (s : TestTokenState) (t : TokenVisit)
    (h : ¬(0 ≤ t.word ∧ t.word ≠ 1)) :
    (testProcessToken s t).logProbSentence = s.logProbSentence := by
  unfold testProcessToken
  rw [if_neg h]

/-- A revisit of an already recorded token position is a no-op for the
evaluation accumulators. -/
theorem testProcessToken_of_revisit (s : TestTokenState) (t : TokenVisit)
    (v : ℚ) (hw : 0 ≤ t.word) (hw1 : t.word ≠ 1)
    (hfound : mapFind s.logProbSentence t.tokenNumber = some v) :
    testProcessToken s t = s := by
  unfold testProcessToken
  rw [if_pos ⟨hw, hw1⟩, hfound]

/-- A first visit of a counted token position prepends one entry to the
per-sentence map. -/
theorem testProcessToken_of_insert (s : TestTokenState) (t : TokenVisit)
    (hw : 0 ≤ t.word) (hw1 : t.word ≠ 1)
    (hnew : mapFind s.logProbSentence t.tokenNumber = none) :
    testProcessToken s t =
      { s with
        logProbSentence := (t.tokenNumber, t.logProbabilityWord) :: s.logProbSentence,
        testLogProbability := s.testLogProbability + t.logProbabilityWord,
        sentenceLogProbability := s.sentenceLogProbability + t.logProbabilityWord,
        uniqueWordCounter := s.uniqueWordCounter + 1 } := by
  unfold testProcessToken
  rw [if_pos ⟨hw, hw1⟩, hnew]

/-- One evaluation token step preserves the difference between the
per-sentence score and the sum of the values stored in the map. -/
theorem testProcessToken_score_sub_sum (s : TestTokenState) (t : TokenVisit) :
    (testProcessToken s t).sentenceLogProbability
        - sumValues (testProcessToken s t).logProbSentence
      = s.sentenceLogProbability - sumValues s.logProbSentence := by
  unfold testProcessToken
  split
  · split
    · simp [sumValues]
      ring
    · rfl
  · rfl

/-- Fold version of `testProcessToken_score_sub_sum`. -/
theorem testProcessSentenceTokens_score_sub_sum (visits : List TokenVisit) :
    ∀ s : TestTokenState,
      (testProcessSentenceTokens s visits).sentenceLogProbability
          - sumValues (testProcessSentenceTokens s visits).logProbSentence
        = s.sentenceLogProbability - sumValues s.logProbSentence := by
  induction visits with
  | nil => intro s; rfl
  | cons t rest ih =>
    intro s
    have h1 : testProcessSentenceTokens s (t :: rest)
        = testProcessSentenceTokens (testProcessToken s t) rest := rfl
    rw [h1, ih (testProcessToken s t), testProcessToken_score_sub_sum]

/-- One evaluation token step keeps the keys of the per-sentence map
free of duplicates. -/
theorem testProcessToken_nodup (s : TestTokenState) (t : TokenVisit)
    (h : (keysOf s.logProbSentence).Nodup) :
    (keysOf (testProcessToken s t).logProbSentence).Nodup := by
  unfold testProcessToken
  split
  · split
    · next hnew =>
      have hk : t.tokenNumber ∉ keysOf s.logProbSentence :=
        (mapFind_eq_none_iff _ _).mp hnew
      simp only [keysOf, List.map_cons, List.nodup_cons]
      exact ⟨hk, h⟩
    · exact h
  · exact h

/-- Fold version of `testProcessToken_nodup`. -/
theorem testProcessSentenceTokens_nodup (visits : List TokenVisit) :
    ∀ s : TestTokenState, (keysOf s.logProbSentence).Nodup →
      (keysOf (testProcessSentenceTokens s visits).logProbSentence).Nodup := by
  induction visits with
  | nil => intro s h; exact h
  | cons t rest ih =>
    intro s h
    exact ih (testProcessToken s t) (testProcessToken_nodup s t h)

/-- A value already stored in the per-sentence map survives one token
step unchanged. -/
theorem testProcessToken_mapFind_mono (s : TestTokenState) (t : TokenVisit)
    (p : ℤ) (v : ℚ) (h : mapFind s.logProbSentence p = some v) :
    mapFind (testProcessToken s t).logProbSentence p = some v := by
  unfold testProcessToken
  split
  · split
    · next hm =>
      have hne : t.tokenNumber ≠ p := by
        intro he
        rw [he, h] at hm
        cases hm
      simp only [mapFind, if_neg hne]
      exact h
    · exact h
  · exact h

/-- Fold version of `testProcessToken_mapFind_mono`. -/
theorem testProcessSentenceTokens_mapFind_mono (visits : List TokenVisit) :
    ∀ (s : TestTokenState) (p : ℤ) (v : ℚ),
      mapFind s.logProbSentence p = some v →
      mapFind (testProcessSentenceTokens s visits).logProbSentence p = some v := by
  induction visits with
  | nil => intro s p v h; exact h
  | cons t rest ih =>
    intro s p v h
    exact ih (testProcessToken s t) p v (testProcessToken_mapFind_mono s t p v h)

/-- A position absent from the per-sentence map ends up mapped to the
log-probability of its first counted visit (or stays absent). -/
theorem testProcessSentenceTokens_mapFind_of_none (visits : List TokenVisit) :
    ∀ (s : TestTokenState) (p : ℤ),
      mapFind s.logProbSentence p = none →
      mapFind (testProcessSentenceTokens s visits).logProbSentence p
        = firstVisitLogProb visits p := by
  induction visits with
  | nil =>
    intro s p h
    simpa [testProcessSentenceTokens, firstVisitLogProb] using h
  | cons t rest ih =>
    intro s p h
    have hfold : testProcessSentenceTokens s (t :: rest)
        = testProcessSentenceTokens (testProcessToken s t) rest := rfl
    rw [hfold]
    by_cases hc : 0 ≤ t.word ∧ t.word ≠ 1
    · by_cases htp : t.tokenNumber = p
      · subst htp
        have h1 : mapFind (testProcessToken s t).logProbSentence t.tokenNumber
            = some t.logProbabilityWord := by
          rw [testProcessToken_of_insert s t hc.1 hc.2 h]
          simp [mapFind]
        have h2 := testProcessSentenceTokens_mapFind_mono rest
          (testProcessToken s t) t.tokenNumber t.logProbabilityWord h1
        rw [h2]
        simp only [firstVisitLogProb]
        rw [if_pos ⟨hc, trivial⟩]
      · have hnone : mapFind (testProcessToken s t).logProbSentence p = none := by
          cases hm : mapFind s.logProbSentence t.tokenNumber with
          | none =>
            rw [testProcessToken_of_insert s t hc.1 hc.2 hm]
            simp only [mapFind, if_neg htp]
            exact h
          | some w =>
            rw [testProcessToken_of_revisit s t w hc.1 hc.2 hm]
            exact h
        rw [ih (testProcessToken s t) p hnone]
        simp only [firstVisitLogProb]
        rw [if_neg (by tauto)]
    · have hmap := testProcessToken_map_of_skip s t hc
      rw [ih (testProcessToken s t) p (by rw [hmap]; exact h)]
      simp only [firstVisitLogProb]
      rw [if_neg (by tauto)]

/-- The convergence test touches neither the weights, the state, the
backups, the learning rate nor `lastValidLogProbability`. -/
theorem epochEndConvergenceTest_fields (s : TrainLoopState) (v : ℚ) :
    (epochEndConvergenceTest s v).weights = s.weights
    ∧ (epochEndConvergenceTest s v).state = s.state
    ∧ (epochEndConvergenceTest s v).weightsBackup = s.weightsBackup
    ∧ (epochEndConvergenceTest s v).stateBackup = s.stateBackup
    ∧ (epochEndConvergenceTest s v).learningRate = s.learningRate
    ∧ (epochEndConvergenceTest s v).lastValidLogProbability
      = s.lastValidLogProbability := by
  unfold epochEndConvergenceTest
  split
  · split <;> exact ⟨rfl, rfl, rfl, rfl, rfl, rfl⟩
  · exact ⟨rfl, rfl, rfl, rfl, rfl, rfl⟩

/-- The advance step touches neither the weights, the state nor the
backups. -/
theorem epochEndAdvance_fields (s : TrainLoopState) (v : ℚ) :
    (epochEndAdvance s v).weights = s.weights
    ∧ (epochEndAdvance s v).state = s.state
    ∧ (epochEndAdvance s v).weightsBackup = s.weightsBackup
    ∧ (epochEndAdvance s v).stateBackup = s.stateBackup := by
  unfold epochEndAdvance
  split <;> exact ⟨rfl, rfl, rfl, rfl⟩

/-- After any end-of-epoch transition the live weights and state coincide
with the backup: either the backup was just restored into them or they
were just copied into the backup. -/
theorem epochEndUpdate_weights_eq_backup (s : TrainLoopState) (v : ℚ) :
    (epochEndUpdate s v).weights = (epochEndUpdate s v).weightsBackup
    ∧ (epochEndUpdate s v).state = (epochEndUpdate s v).stateBackup := by
  unfold epochEndUpdate
  obtain ⟨hw, hs, hwb, hsb, -, -⟩ :=
    epochEndConvergenceTest_fields (epochEndBackupOrRestore s v) v
  obtain ⟨hw2, hs2, hwb2, hsb2⟩ :=
    epochEndAdvance_fields
      (epochEndConvergenceTest (epochEndBackupOrRestore s v) v) v
  rw [hw2, hs2, hwb2, hsb2, hw, hs, hwb, hsb]
  unfold epochEndBackupOrRestore
  split <;> exact ⟨rfl, rfl⟩

/-- When the epoch loop goes on, the end-of-epoch transition stores this
epoch's validation log-probability as the new reference value. -/
theorem epochEndUpdate_lastValid (s : TrainLoopState) (v : ℚ)
    (h : (epochEndUpdate s v).loopEpochs = true) :
    (epochEndUpdate s v).lastValidLogProbability = v := by
  unfold epochEndUpdate epochEndAdvance at h ⊢
  split at h
  · next hc =>
    rw [if_pos hc]
  · next hc =>
    exact absurd h hc

/-- Rollback branch of the end-of-epoch transition: weights and state are
restored from the backup. -/
theorem epochEndUpdate_of_rollback (s : TrainLoopState) (v : ℚ)
    (h : v < s.lastValidLogProbability) :
    (epochEndUpdate s v).weights = s.weightsBackup
    ∧ (epochEndUpdate s v).state = s.stateBackup := by
  unfold epochEndUpdate
  obtain ⟨hw, hs, -, -, -, -⟩ :=
    epochEndConvergenceTest_fields (epochEndBackupOrRestore s v) v
  obtain ⟨hw2, hs2, -, -⟩ :=
    epochEndAdvance_fields
      (epochEndConvergenceTest (epochEndBackupOrRestore s v) v) v
  rw [hw2, hs2, hw, hs]
  unfold epochEndBackupOrRestore
  rw [if_pos h]
  exact ⟨rfl, rfl⟩

/-- Checkpoint branch of the end-of-epoch transition: the current weights
and state are copied into the backup and kept live. -/
theorem epochEndUpdate_of_checkpoint (s : TrainLoopState) (v : ℚ)
    (h : ¬ v < s.lastValidLogProbability) :
    (epochEndUpdate s v).weightsBackup = s.weights
    ∧ (epochEndUpdate s v).stateBackup = s.state
    ∧ (epochEndUpdate s v).weights = s.weights
    ∧ (epochEndUpdate s v).state = s.state := by
  unfold epochEndUpdate
  obtain ⟨hw, hs, hwb, hsb, -, -⟩ :=
    epochEndConvergenceTest_fields (epochEndBackupOrRestore s v) v
  obtain ⟨hw2, hs2, hwb2, hsb2⟩ :=
    epochEndAdvance_fields
      (epochEndConvergenceTest (epochEndBackupOrRestore s v) v) v
  rw [hw2, hs2, hwb2, hsb2, hw, hs, hwb, hsb]
  unfold epochEndBackupOrRestore
  rw [if_neg h]
  exact ⟨rfl, rfl, rfl, rfl⟩

/-- One feature update keeps all entries inside `[0, 1]` when the decay
coefficient lies in `[0, 1]`. -/
theorem UpdateFeatureLabelVector_mem_unit (gammaCoeff : ℚ) (label : ℤ)
    (f : List ℚ) (hg0 : 0 ≤ gammaCoeff) (hg1 : gammaCoeff ≤ 1)
    (hf : ∀ x ∈ f, 0 ≤ x ∧ x ≤ 1) :
    ∀ x ∈ UpdateFeatureLabelVector gammaCoeff label f, 0 ≤ x ∧ x ≤ 1 := by
  intro x hx
  have hdec : ∀ y ∈ f.map (fun a => a * gammaCoeff), 0 ≤ y ∧ y ≤ 1 := by
    intro y hy
    obtain ⟨a, ha, rfl⟩ := List.mem_map.mp hy
    exact ⟨mul_nonneg (hf a ha).1 hg0, mul_le_one₀ (hf a ha).2 hg0 hg1⟩
  unfold UpdateFeatureLabelVector at hx
  dsimp only at hx
  split at hx
  · rcases List.mem_or_eq_of_mem_set hx with hmem | rfl
    · exact hdec x hmem
    · exact ⟨by norm_num, le_refl 1⟩
  · exact hdec x hx

/-- Folding any label sequence over a feature layer with entries in
`[0, 1]` keeps all entries in `[0, 1]`. -/
theorem foldl_UpdateFeatureLabelVector_mem_unit (gammaCoeff : ℚ)
    (hg0 : 0 ≤ gammaCoeff) (hg1 : gammaCoeff ≤ 1) (labels : List ℤ) :
    ∀ f : List ℚ, (∀ x ∈ f, 0 ≤ x ∧ x ≤ 1) →
      ∀ x ∈ labels.foldl
        (fun f' label => UpdateFeatureLabelVector gammaCoeff label f') f,
        0 ≤ x ∧ x ≤ 1 := by
  induction labels with
  | nil => intro f hf; exact hf
  | cons label rest ih =>
    intro f hf
    exact ih (UpdateFeatureLabelVector gammaCoeff label f)
      (UpdateFeatureLabelVector_mem_unit gammaCoeff label f hg0 hg1 hf)

/-- With an out-of-range label (no tree-label input), one update is a pure
decay of every entry by `gammaCoeff`. -/
theorem UpdateFeatureLabelVector_no_label (gammaCoeff : ℚ) (f : List ℚ) :
    UpdateFeatureLabelVector gammaCoeff (-1) f
      = f.map (fun a => a * gammaCoeff) := by
  unfold UpdateFeatureLabelVector
  dsimp only
  rw [if_neg]
  intro h
  exact absurd h.1 (by norm_num)

/-- Applying `k` consecutive updates without label input multiply every entry by
`gammaCoeff ^ k`. -/
theorem foldl_UpdateFeatureLabelVector_decay (gammaCoeff : ℚ) (k : ℕ) :
    ∀ f : List ℚ,
      (List.replicate k (-1 : ℤ)).foldl
        (fun f' label => UpdateFeatureLabelVector gammaCoeff label f') f
      = f.map (fun a => a * gammaCoeff ^ k) := by
  induction k with
  | zero =>
    intro f
    simp
  | succ k ih =>
    intro f
    rw [List.replicate_succ, List.foldl_cons, UpdateFeatureLabelVector_no_label,
      ih, List.map_map]
    apply List.map_congr_left
    intro a _
    simp only [Function.comp_apply]
    rw [pow_succ]
    ring

/-! ## Claim theorems -/

/-- C4: for every token and every discount value, the learning rate after
`BackPropagateErrorsThenOneStepGradientDescent` returns and the rate is
restored equals its value before the discount was applied, while the
weight update itself was driven by the discounted rate; the discount never
leaks into the learning rate used for subsequent tokens. -/
theorem C4_learningRate_restored_after_discounted_backprop
    (backProp : List ℚ → ℚ → List ℚ) (discount : ℚ) (s : SgdStepState) :
    (discountedBackPropStep backProp discount s).learningRate = s.learningRate
    ∧ (discountedBackPropStep backProp discount s).weights
      = backProp s.weights (s.learningRate * discount) :=
  ⟨rfl, rfl⟩

/-- C8: if an external class file is requested,
`LearnVocabularyFromTrainFile` returns `false` and the vocabulary state is
exactly the cleared one: the word/label maps and the vocabulary storage
are empty and no vocabulary entry has been added. -/
theorem C8_learnVocabulary_classFile_aborts (corpus : CorpusData)
    (s : RnnVocabState) (h : s.usesClassFile = true) :
    LearnVocabularyFromTrainFile corpus s =
      ({ s with
          numTrainWords := corpus.totalWords,
          vocabularyStorage := [],
          mapWord2Index := [],
          mapIndex2Word := [],
          mapLabel2Index := [] }, false) := by
  unfold LearnVocabularyFromTrainFile
  simp [h]

/-- C8 witness: a concrete vocabulary state with `usesClassFile` set is
left cleared and the call reports failure. -/
theorem C8_learnVocabulary_classFile_aborts_witness :
    (({ numTrainWords := 0,
        vocabularyStorage := [{ word := "old", cn := 3, classIndex := 0 }],
        mapWord2Index := [("old", 0)],
        mapIndex2Word := [(0, "old")],
        mapLabel2Index := [("nsubj", 0)],
        usesClassFile := true } : RnnVocabState).usesClassFile = true)
    ∧ LearnVocabularyFromTrainFile
        { totalWords := 7, vocabularyReverse := ["a"],
          wordCountsDiscounted := [3/2], labelsReverse := ["nsubj"] }
        { numTrainWords := 0,
          vocabularyStorage := [{ word := "old", cn := 3, classIndex := 0 }],
          mapWord2Index := [("old", 0)],
          mapIndex2Word := [(0, "old")],
          mapLabel2Index := [("nsubj", 0)],
          usesClassFile := true }
      = ({ numTrainWords := 7,
           vocabularyStorage := [],
           mapWord2Index := [],
           mapIndex2Word := [],
           mapLabel2Index := [],
           usesClassFile := true }, false) :=
  ⟨rfl, C8_learnVocabulary_classFile_aborts _ _ rfl⟩

/-- C6 counterexample: an infinite accumulated log-probability is
non-finite, yet the check `trainLogProbability != trainLogProbability`
does not fire, so the training loop does not stop — refuting the claim
that any non-finite value stops training. -/
theorem C6_infinite_logprob_not_detected_counterexample :
    dvalIsFinite DVal.negInf = false
    ∧ trainNumericalErrorStops DVal.negInf = false :=
  ⟨rfl, rfl⟩

/-- C6 (amended): the training loop's numerical-error check stops training
(returns `false`) exactly when the accumulated log-probability is NaN;
infinities are not detected (the `isinf` test is disabled in the source),
and there is no automatic retry — the check returns from `TrainRnnModel`. -/
theorem C6_divergence_check_stops_iff_nan (lp : DVal) :
    trainNumericalErrorStops lp = true ↔ lp = DVal.nan := by
  cases lp <;> simp [trainNumericalErrorStops, dvalNe]

/-- C2 counterexample: in the training loop a token with word index `1`
(the `<unk>` sentinel) at a fresh position does change both
`uniqueWordCounter` and the accumulated log-probability — refuting the
claim for `TrainRnnModel`, whose guard is only `word >= 0`. -/
theorem C2_unk_counted_in_training_counterexample :
    (trainProcessToken ⟨[], 0, 0, 0⟩ ⟨0, 1, -1⟩).uniqueWordCounter
      ≠ (⟨[], 0, 0, 0⟩ : TrainTokenState).uniqueWordCounter
    ∧ (trainProcessToken ⟨[], 0, 0, 0⟩ ⟨0, 1, -1⟩).trainLogProbability
      ≠ (⟨[], 0, 0, 0⟩ : TrainTokenState).trainLogProbability := by
  constructor
  · simp [trainProcessToken, mapFind]
  · simp [trainProcessToken, mapFind]

/-- C2 (amended): in evaluation (`TestRnnModel`) every token with word
index `< 0` or equal to the unknown sentinel `1` leaves the per-sentence
map, the sentence score, the accumulated log-probability and
`uniqueWordCounter` unchanged and only bumps the out-of-vocabulary tally
`numUnk`; in training (`TrainRnnModel`) only tokens with word index `< 0`
are excluded (they change nothing, and no out-of-vocabulary tally is
kept) — the sentinel index `1` is counted normally there. -/
theorem C2_oov_and_unk_token_effects (s : TestTokenState)
    (s' : TrainTokenState) (t : TokenVisit) :
    (t.word < 0 ∨ t.word = 1 →
      (testProcessToken s t).uniqueWordCounter = s.uniqueWordCounter
      ∧ (testProcessToken s t).testLogProbability = s.testLogProbability
      ∧ (testProcessToken s t).sentenceLogProbability = s.sentenceLogProbability
      ∧ (testProcessToken s t).logProbSentence = s.logProbSentence
      ∧ (testProcessToken s t).numUnk = s.numUnk + 1)
    ∧ (t.word < 0 → trainProcessToken s' t = s') := by
  constructor
  · intro h
    have hcond : ¬(0 ≤ t.word ∧ t.word ≠ 1) := by
      rcases h with h | h
      · intro hc
        omega
      · intro hc
        exact hc.2 h
    unfold testProcessToken
    rw [if_neg hcond]
    exact ⟨rfl, rfl, rfl, rfl, rfl⟩
  · intro h
    unfold trainProcessToken
    rw [if_neg (by omega)]

/-- C2 witness: a token with word index `-1` is a no-op for the training
accumulators and only bumps `numUnk` in evaluation. -/
theorem C2_oov_and_unk_token_effects_witness :
    trainProcessToken ⟨[], 0, 0, 0⟩ ⟨0, -1, 5⟩ = (⟨[], 0, 0, 0⟩ : TrainTokenState)
    ∧ (testProcessToken ⟨[], 0, 0, 0, 0⟩ ⟨0, -1, 5⟩).numUnk = 0 + 1 :=
  ⟨(C2_oov_and_unk_token_effects ⟨[], 0, 0, 0, 0⟩ ⟨[], 0, 0, 0⟩ ⟨0, -1, 5⟩).2
      (by decide),
   ((C2_oov_and_unk_token_effects ⟨[], 0, 0, 0, 0⟩ ⟨[], 0, 0, 0⟩ ⟨0, -1, 5⟩).1
      (Or.inl (by decide))).2.2.2.2⟩

/-- C10: in `TestRnnModel`, a token visit whose position is already in the
per-sentence map leaves the whole accumulator state unchanged — the stored
log-probability, the sentence score, the accumulated test log-probability
and `uniqueWordCounter` — even when the newly computed log-probability
differs from the stored one (the mismatch is only printed). -/
theorem C10_revisit_is_noop (s : TestTokenState) (t : TokenVisit) (v : ℚ)
    (hw : 0 ≤ t.word) (hw1 : t.word ≠ 1)
    (hfound : mapFind s.logProbSentence t.tokenNumber = some v) :
    testProcessToken s t = s :=
  testProcessToken_of_revisit s t v hw hw1 hfound

/-- C10 witness: a revisit of position `0` with a different newly computed
log-probability (`3` against the stored `2`) changes nothing. -/
theorem C10_revisit_is_noop_witness :
    (0 : ℤ) ≤ 2 ∧ (2 : ℤ) ≠ 1
    ∧ mapFind [((0 : ℤ), (2 : ℚ))] 0 = some 2
    ∧ testProcessToken ⟨[(0, 2)], 9, 9, 9, 9⟩ ⟨0, 2, 3⟩
      = (⟨[(0, 2)], 9, 9, 9, 9⟩ : TestTokenState) :=
  ⟨by decide, by decide, by simp [mapFind],
   C10_revisit_is_noop ⟨[(0, 2)], 9, 9, 9, 9⟩ ⟨0, 2, 3⟩ 2 (by decide) (by decide)
     (by simp [mapFind])⟩

/-- C5: for every sentence processed by `TestRnnModel`, the score appended
to `sentenceScores` equals the sum, over the distinct token positions
recorded in the per-sentence map, of the log10 probability stored at each
position's first counted visit; recorded positions are pairwise distinct,
and each one maps to the log-probability of its first visit, so revisits
by later unroll paths contribute nothing. -/
theorem C5_sentence_score_sums_unique_positions (testLogProbability : ℚ)
    (uniqueWordCounter numUnk : ℕ) (sentenceScores : List ℚ)
    (visits : List TokenVisit) :
    recordSentenceScore sentenceScores
        (testRunSentence testLogProbability uniqueWordCounter numUnk visits)
      = sentenceScores ++
        [sumValues (testRunSentence testLogProbability uniqueWordCounter
          numUnk visits).logProbSentence]
    ∧ (keysOf (testRunSentence testLogProbability uniqueWordCounter numUnk
        visits).logProbSentence).Nodup
    ∧ ∀ p : ℤ,
        mapFind (testRunSentence testLogProbability uniqueWordCounter numUnk
          visits).logProbSentence p = firstVisitLogProb visits p := by
  refine ⟨?_, ?_, ?_⟩
  · unfold recordSentenceScore
    have h := testProcessSentenceTokens_score_sub_sum visits
      { logProbSentence := [],
        sentenceLogProbability := 0,
        testLogProbability := testLogProbability,
        uniqueWordCounter := uniqueWordCounter,
        numUnk := numUnk }
    unfold testRunSentence
    have h0 : sumValues ([] : List (ℤ × ℚ)) = 0 := rfl
    have hscore :
        (testProcessSentenceTokens
          { logProbSentence := [],
            sentenceLogProbability := 0,
            testLogProbability := testLogProbability,
            uniqueWordCounter := uniqueWordCounter,
            numUnk := numUnk } visits).sentenceLogProbability
        = sumValues (testProcessSentenceTokens
          { logProbSentence := [],
            sentenceLogProbability := 0,
            testLogProbability := testLogProbability,
            uniqueWordCounter := uniqueWordCounter,
            numUnk := numUnk } visits).logProbSentence := by
      have := h
      simp only [h0] at this
      linarith [this]
    rw [hscore]
  · exact testProcessSentenceTokens_nodup visits _ (by simp [keysOf])
  · intro p
    exact testProcessSentenceTokens_mapFind_of_none visits _ p rfl

/-- C9: starting from a zeroed feature layer, with decay coefficient in
`[0, 1]`, every sequence of `UpdateFeatureLabelVector` calls keeps every
feature-layer entry in `[0, 1]` (each call multiplies all entries by the
coefficient and then sets the in-range current label's entry to `1.0`);
and with no further label input, `k` more steps multiply every entry by
`gammaCoeff ^ k`, so the entries decay toward zero. -/
theorem C9_featureLayer_unit_interval_and_decay (gammaCoeff : ℚ) (n : ℕ)
    (hg0 : 0 ≤ gammaCoeff) (hg1 : gammaCoeff ≤ 1) (labels : List ℤ) :
    (∀ x ∈ labels.foldl
        (fun f label => UpdateFeatureLabelVector gammaCoeff label f)
        (ResetFeatureLabelVector n),
      0 ≤ x ∧ x ≤ 1)
    ∧ ∀ (k : ℕ) (f : List ℚ),
        (List.replicate k (-1 : ℤ)).foldl
          (fun f label => UpdateFeatureLabelVector gammaCoeff label f) f
        = f.map (fun a => a * gammaCoeff ^ k) := by
  constructor
  · apply foldl_UpdateFeatureLabelVector_mem_unit gammaCoeff hg0 hg1 labels
    intro x hx
    unfold ResetFeatureLabelVector at hx
    rw [List.eq_of_mem_replicate hx]
    norm_num
  · intro k f
    exact foldl_UpdateFeatureLabelVector_decay gammaCoeff k f

/-- C9 witness: with coefficient `1/2` on a 2-entry layer, updating with
labels `0` then `5` (out of range) gives `[1/2, 0]`, inside `[0, 1]`. -/
theorem C9_featureLayer_unit_interval_and_decay_witness :
    (0 : ℚ) ≤ 1/2 ∧ (1/2 : ℚ) ≤ 1
    ∧ ([(0 : ℤ), 5].foldl
        (fun f label => UpdateFeatureLabelVector (1/2) label f)
        (ResetFeatureLabelVector 2)
      = [1/2, 0])
    ∧ (∀ x ∈ [(0 : ℤ), 5].foldl
        (fun f label => UpdateFeatureLabelVector (1/2) label f)
        (ResetFeatureLabelVector 2),
      0 ≤ x ∧ x ≤ 1) := by
  refine ⟨by norm_num, by norm_num, ?_, ?_⟩
  · show UpdateFeatureLabelVector (1/2) 5
        (UpdateFeatureLabelVector (1/2) 0 (ResetFeatureLabelVector 2)) = [1/2, 0]
    norm_num [UpdateFeatureLabelVector, ResetFeatureLabelVector, List.set]
  · exact (C9_featureLayer_unit_interval_and_decay (1/2) 2 (by norm_num)
      (by norm_num) [0, 5]).1

/-- C1: at the end of epoch `k`, if the validation log-probability `v2` is
below the previous epoch's stored value `v1`, the weights and state are
restored (bitwise, i.e. as values) from the backup taken at the end of
epoch `k-1`, discarding this epoch's updates `w'`, `st'`; otherwise the
backup is replaced by the current weights and state. -/
theorem C1_epoch_rollback_or_checkpoint (s0 s1 s2 : TrainLoopState)
    (v1 v2 : ℚ) (w' st' : List ℚ)
    (h1 : s1 = epochEndUpdate s0 v1)
    (hloop : s1.loopEpochs = true)
    (h2 : s2 = epochEndUpdate { s1 with weights := w', state := st' } v2) :
    (v2 < v1 → s2.weights = s1.weights ∧ s2.state = s1.state)
    ∧ (¬ v2 < v1 →
        s2.weightsBackup = w' ∧ s2.stateBackup = st'
        ∧ s2.weights = w' ∧ s2.state = st') := by
  subst h1 h2
  have hlast : ({ epochEndUpdate s0 v1 with weights := w', state := st' }
      : TrainLoopState).lastValidLogProbability = v1 :=
    epochEndUpdate_lastValid s0 v1 hloop
  constructor
  · intro hlt
    have hroll := epochEndUpdate_of_rollback
      { epochEndUpdate s0 v1 with weights := w', state := st' } v2
      (by rw [hlast]; exact hlt)
    have hback := epochEndUpdate_weights_eq_backup s0 v1
    constructor
    · rw [hroll.1]
      exact hback.1.symm
    · rw [hroll.2]
      exact hback.2.symm
  · intro hge
    have hchk := epochEndUpdate_of_checkpoint
      { epochEndUpdate s0 v1 with weights := w', state := st' } v2
      (by rw [hlast]; exact hge)
    exact ⟨hchk.1, hchk.2.1, hchk.2.2.1, hchk.2.2.2⟩

/-- C1 witness: after an improving epoch 1 (validation `-10` against the
initial `-100`), a regressing epoch 2 (validation `-20 < -10`) whose
training produced weights `[9]` and state `[8]` ends with the weights and
state of the end of epoch 1 restored. -/
theorem C1_epoch_rollback_or_checkpoint_witness :
    (epochEndUpdate ⟨[1], [2], [0], [0], 1, -100, 1, false, 0, true⟩
        (-10)).loopEpochs = true
    ∧ ((-20 : ℚ) < -10)
    ∧ (epochEndUpdate
        { epochEndUpdate ⟨[1], [2], [0], [0], 1, -100, 1, false, 0, true⟩ (-10)
          with weights := [9], state := [8] } (-20)).weights
      = (epochEndUpdate ⟨[1], [2], [0], [0], 1, -100, 1, false, 0, true⟩
          (-10)).weights
    ∧ (epochEndUpdate
        { epochEndUpdate ⟨[1], [2], [0], [0], 1, -100, 1, false, 0, true⟩ (-10)
          with weights := [9], state := [8] } (-20)).state
      = (epochEndUpdate ⟨[1], [2], [0], [0], 1, -100, 1, false, 0, true⟩
          (-10)).state := by
  have hloop : (epochEndUpdate
      ⟨[1], [2], [0], [0], 1, -100, 1, false, 0, true⟩ (-10)).loopEpochs
      = true := by
    norm_num [epochEndUpdate, epochEndBackupOrRestore, epochEndConvergenceTest,
      epochEndAdvance]
  have h := C1_epoch_rollback_or_checkpoint
    ⟨[1], [2], [0], [0], 1, -100, 1, false, 0, true⟩ _ _ (-10) (-20) [9] [8]
    rfl hloop rfl
  exact ⟨hloop, by norm_num, (h.1 (by norm_num)).1, (h.1 (by norm_num)).2⟩

/-- C3 counterexample: in a state where the ratio test triggers for the
first time (flag still unset), the end-of-epoch transition sets the flag
and keeps looping, but the learning rate is already halved at the end of
that same epoch — refuting the claim that training continues for one more
epoch at the same learning rate and that halving happens only in later
epochs. -/
theorem C3_lr_halved_on_first_trigger_counterexample :
    (epochEndUpdate ⟨[], [], [], [], 1, -10, 1, false, 0, true⟩
        (-20)).doStartReducingLearningRate = true
    ∧ (epochEndUpdate ⟨[], [], [], [], 1, -10, 1, false, 0, true⟩
        (-20)).loopEpochs = true
    ∧ (epochEndUpdate ⟨[], [], [], [], 1, -10, 1, false, 0, true⟩
        (-20)).learningRate
      ≠ (⟨[], [], [], [], 1, -10, 1, false, 0, true⟩
          : TrainLoopState).learningRate := by
  refine ⟨?_, ?_, ?_⟩ <;>
    norm_num [epochEndUpdate, epochEndBackupOrRestore, epochEndConvergenceTest,
      epochEndAdvance]

/-- C3 (amended): when the ratio test
`validLogProbability * minLogProbaImprovement < lastValidLogProbability`
triggers while the learning-rate-reduction flag is not yet set and the
loop is continuing, the transition sets the flag and training continues
(the epoch counter advances and this epoch's validation log-probability is
stored), but the learning rate is already halved at the end of that same
epoch, not only in later epochs. -/
theorem C3_first_trigger_sets_flag_and_halves_lr (s : TrainLoopState) (v : ℚ)
    (hflag : s.doStartReducingLearningRate = false)
    (hloop : s.loopEpochs = true)
    (htrig : v * s.minLogProbaImprovement < s.lastValidLogProbability) :
    (epochEndUpdate s v).doStartReducingLearningRate = true
    ∧ (epochEndUpdate s v).loopEpochs = true
    ∧ (epochEndUpdate s v).learningRate = s.learningRate / 2
    ∧ (epochEndUpdate s v).iteration = s.iteration + 1
    ∧ (epochEndUpdate s v).lastValidLogProbability = v := by
  unfold epochEndUpdate epochEndBackupOrRestore epochEndConvergenceTest
    epochEndAdvance
  split <;> simp [hflag, hloop, htrig]

/-- C3 witness: the concrete state of the counterexample run through the
amended statement: flag set, loop continuing, learning rate `1/2`. -/
theorem C3_first_trigger_sets_flag_and_halves_lr_witness :
    ((⟨[], [], [], [], 1, -10, 1, false, 0, true⟩
        : TrainLoopState).doStartReducingLearningRate = false)
    ∧ ((-20 : ℚ) * (⟨[], [], [], [], 1, -10, 1, false, 0, true⟩
        : TrainLoopState).minLogProbaImprovement
      < (⟨[], [], [], [], 1, -10, 1, false, 0, true⟩
          : TrainLoopState).lastValidLogProbability)
    ∧ (epochEndUpdate ⟨[], [], [], [], 1, -10, 1, false, 0, true⟩
        (-20)).learningRate
      = (⟨[], [], [], [], 1, -10, 1, false, 0, true⟩
          : TrainLoopState).learningRate / 2
    ∧ (epochEndUpdate ⟨[], [], [], [], 1, -10, 1, false, 0, true⟩
        (-20)).iteration = 1 :=
  ⟨rfl, by norm_num,
   (C3_first_trigger_sets_flag_and_halves_lr
      ⟨[], [], [], [], 1, -10, 1, false, 0, true⟩ (-20) rfl rfl
      (by norm_num)).2.2.1,
   (C3_first_trigger_sets_flag_and_halves_lr
      ⟨[], [], [], [], 1, -10, 1, false, 0, true⟩ (-20) rfl rfl
      (by norm_num)).2.2.2.1⟩

/-- The value `log10(2)` is positive. -/
theorem logb_ten_two_pos : 0 < Real.logb 10 2 :=
  Real.logb_pos (by norm_num) (by norm_num)

/-- The value `log10(2)` is below one. -/
theorem logb_ten_two_lt_one : Real.logb 10 2 < 1 := by
  have h := Real.logb_lt_logb (b := 10) (by norm_num) (x := 2) (by norm_num)
    (y := 10) (by norm_num)
  rwa [Real.logb_self_eq_one (by norm_num)] at h

/-- Change of base: `2 ^ (y / log10(2)) = 10 ^ y`. -/
theorem two_rpow_div_logb (y : ℝ) :
    (2 : ℝ) ^ (y / Real.logb 10 2) = (10 : ℝ) ^ y := by
  have hlog2 : Real.log 2 ≠ 0 := by
    have := Real.log_pos (by norm_num : (1 : ℝ) < 2)
    linarith
  have hlog10 : Real.log 10 ≠ 0 := by
    have := Real.log_pos (by norm_num : (1 : ℝ) < 10)
    linarith
  have hrw : y / Real.logb 10 2 = Real.logb 2 10 * y := by
    rw [Real.logb, Real.logb]
    field_simp
    ring
  rw [hrw, Real.rpow_mul (by norm_num : (0 : ℝ) ≤ 2),
    Real.rpow_logb (by norm_num) (by norm_num) (by norm_num)]

/-- C7 counterexample: for `logProbability = -1` and `wordCount = 1` the
perplexity is `10` but `10 ^ entropy = 10 ^ (1 / log10(2)) > 10`, so the
claimed identity `perplexity == 10 ^ entropy` fails. -/
theorem C7_perplexity_ne_ten_pow_entropy_counterexample :
    ¬ trainPerplexity (-1) 1 = ExponentiateBase10 (trainEntropy (-1) 1) := by
  unfold trainPerplexity trainEntropy ExponentiateBase10
  norm_num
  intro h
  have h1 : (1 : ℝ) < 1 / Real.logb 10 2 :=
    one_lt_one_div logb_ten_two_pos logb_ten_two_lt_one
  have h2 : (10 : ℝ) ^ (1 : ℝ) < (10 : ℝ) ^ (1 / Real.logb 10 2) :=
    (Real.rpow_lt_rpow_left_iff (by norm_num)).mpr h1
  rw [Real.rpow_one, one_div] at h2
  rw [← h] at h2
  exact lt_irrefl _ h2

/-- C7 (amended): for any `(logProbability, wordCount)` pair with
`wordCount > 0`, the perplexity `10 ^ (-logProbability / wordCount)` and
the entropy `-logProbability / log10(2) / wordCount` computed by the
training loop (and by the validation branch) satisfy
`perplexity == 2 ^ entropy` — base 2, not base 10. -/
theorem C7_perplexity_eq_two_pow_entropy (logProbability : ℝ) (wordCount : ℕ)
    (hn : 0 < wordCount) :
    trainPerplexity logProbability wordCount
      = (2 : ℝ) ^ trainEntropy logProbability wordCount
    ∧ validPerplexity logProbability wordCount
      = (2 : ℝ) ^ validEntropy logProbability wordCount := by
  have hne : wordCount ≠ 0 := Nat.pos_iff_ne_zero.mp hn
  constructor
  · unfold trainPerplexity trainEntropy ExponentiateBase10
    rw [div_right_comm, two_rpow_div_logb]
  · unfold validPerplexity validEntropy ExponentiateBase10
    rw [if_neg hne, if_neg hne, div_right_comm, two_rpow_div_logb]

/-- C7 witness: the pair `(-1, 1)` satisfies the amended base-2 identity. -/
theorem C7_perplexity_eq_two_pow_entropy_witness :
    0 < 1
    ∧ trainPerplexity (-1) 1 = (2 : ℝ) ^ trainEntropy (-1) 1
    ∧ validPerplexity (-1) 1 = (2 : ℝ) ^ validEntropy (-1) 1 :=
  ⟨Nat.one_pos, (C7_perplexity_eq_two_pow_entropy (-1) 1 Nat.one_pos).1,
   (C7_perplexity_eq_two_pow_entropy (-1) 1 Nat.one_pos).2⟩
